import Mathlib

/-!
Shallow embedding of the LE Secure Connections pairing state machine of the
NimBLE Security Manager (source: src/net/nimble/host/include/host/ble_gatt.h,
appended ble_sm_sc compilation unit, lines 700-1363).

Byte buffers (uint8_t arrays) are modelled as `List Nat`; `memcmp(a, b, 16)`
on two 16-byte buffers is list equality.  The crypto engine, RNG, transport
and address providers are external collaborators (spec section 6); they are
modelled as an explicit `Env` of functions returning an `Int` status code
together with their output buffers, exactly mirroring the C out-parameter
convention (`rc != 0` means failure).  Every operation additionally returns
the list of collaborator calls it performed, so that statements such as
"f5 is not invoked" or "no PairingConfirm is transmitted" are expressible.
-/

namespace BleSmSc

/-- Byte buffers (uint8_t arrays) are modelled as lists of naturals. -/
abbrev Bytes := List Nat

/-- The pairing algorithm enum `BLE_SM_PAIR_ALG_{JW,PASSKEY,OOB,NUMCMP}`
(the spec's AuthenticationMethod: JustWorks, PasskeyEntry, OutOfBand,
NumericComparison). The numeric macro values live in ble_sm_priv.h, which
only compares them for equality, so an inductive enum is faithful. -/
inductive PairAlg where
  | jw
  | passkey
  | oob
  | numcmp
deriving DecidableEq, Repr

/-- The passkey-action codes `BLE_SM_PKACT_{NONE,OOB,INPUT,DISP,NUMCMP}`
(shortened in the source to PKACT_*). -/
inductive PkAct where
  | none
  | oob
  | input
  | disp
  | numcmp
deriving DecidableEq, Repr

/-- The procedure states `BLE_SM_PROC_STATE_*` used by the SC code:
PUBLIC_KEY, CONFIRM, RANDOM, DHKEY_CHECK, LTK_START, ENC_START, plus the
NONE sentinel.  The macro values (ble_sm_priv.h) are only compared for
equality, so an inductive enum is faithful. -/
inductive ProcState where
  | publicKey
  | confirm
  | random
  | dhkeyCheck
  | ltkStart
  | encStart
  | nostate
deriving DecidableEq, Repr

/-- The `proc->flags` bitmask `BLE_SM_PROC_F_*`, modelled as one Bool per
bit: F_INITIATOR, F_SC, F_AUTHENTICATED, F_IO_INJECTED, F_ADVANCE_ON_IO. -/
structure Flags where
  initiator : Bool
  sc : Bool
  authenticated : Bool
  ioInjected : Bool
  advanceOnIo : Bool
deriving DecidableEq, Repr

/-- The fields of `struct ble_sm_pair_cmd` that the SC code reads:
io_cap (5-value enum, hence `Fin 5`), oob_data_flag, authreq. -/
structure PairCmd where
  io_cap : Fin 5
  oob_data_flag : Bool
  authreq : Nat
deriving DecidableEq, Repr

/-- The key-material fields of `proc->our_keys` / `proc->peer_keys` written
by the SC code: ltk[16], ltk_valid, ediv, rand_val, ediv_rand_valid. -/
structure Keys where
  ltk : Bytes
  ltk_valid : Bool
  ediv : Nat
  rand_val : Nat
  ediv_rand_valid : Bool
deriving DecidableEq, Repr

/-- A received public key command `struct ble_sm_public_key`: 32-byte X and
Y coordinates. -/
structure PubKeyCmd where
  x : Bytes
  y : Bytes
deriving DecidableEq, Repr

/-- The pairing procedure `struct ble_sm_proc` (the fields the SC code
touches). -/
structure Proc where
  conn_handle : Nat
  state : ProcState
  flags : Flags
  pair_alg : PairAlg
  pair_req : PairCmd
  pair_rsp : PairCmd
  pub_key_peer : PubKeyCmd
  ri : Nat
  passkey_bits_exchanged : Nat
  tk : Bytes
  randm : Bytes
  rands : Bytes
  confirm_peer : Bytes
  dhkey : Bytes
  mackey : Bytes
  ltk : Bytes
  our_keys : Keys
  peer_keys : Keys
deriving DecidableEq, Repr

/-- The out-parameter `struct ble_sm_result`: app-visible status, SM error
code transmitted to the peer, encryption-callback flag, execute flag
(driving loop runs the next step), and the passkey action/numcmp fields. -/
structure Result where
  app_status : Int
  sm_err : Nat
  enc_cb : Bool
  execute : Bool
  pkact : PkAct
  numcmp : Nat
deriving DecidableEq, Repr

/-- A zeroed `ble_sm_result`, as the rx entry points receive it. -/
def Result.zero : Result :=
  { app_status := 0, sm_err := 0, enc_cb := false, execute := false,
    pkact := PkAct.none, numcmp := 0 }

/-- The process-wide Secure Connections key state: `ble_sm_sc_pub_key`,
`ble_sm_sc_priv_key` and the `ble_sm_sc_keys_generated` flag. -/
structure ScKeyState where
  keys_generated : Bool
  pub_key : Bytes
  priv_key : Bytes
deriving DecidableEq, Repr

/-- A call to an external collaborator, recorded in the order performed. -/
inductive Call where
  | f4 (u v x : Bytes) (z : Nat)
  | f5 (w n1 n2 : Bytes) (a1t : Nat) (a1 : Bytes) (a2t : Nat) (a2 : Bytes)
  | f6 (w n1 n2 r io5 : Bytes) (a1t : Nat) (a1 : Bytes) (a2t : Nat) (a2 : Bytes)
  | g2 (u v x y : Bytes)
  | genDhkey (px py sk : Bytes)
  | randByte
  | genPairRand
  | genPubPriv
  | txConfirm (value : Bytes)
  | txRandom (value : Bytes)
  | txDhkeyCheck (value : Bytes)
  | txPublicKey (x y : Bytes)
deriving DecidableEq, Repr

/-- Recognizer for f4 calls (used to state when the confirm value is
recomputed). -/
def Call.isF4 : Call → Bool
  | Call.f4 _ _ _ _ => true
  | _ => false

/-- Recognizer for f5 calls (used to state when key material is derived). -/
def Call.isF5 : Call → Bool
  | Call.f5 _ _ _ _ _ _ _ => true
  | _ => false

/-- Recognizer for PairingConfirm transmissions. -/
def Call.isTxConfirm : Call → Bool
  | Call.txConfirm _ => true
  | _ => false

/-- Recognizer for f6 calls (used to state when a DHKey check value is
computed). -/
def Call.isF6 : Call → Bool
  | Call.f6 _ _ _ _ _ _ _ _ _ => true
  | _ => false

/-- The external collaborators (spec section 6): crypto engine, RNG,
transport and address providers.  Each returns the C function's `int` code
together with the values it writes through its out pointers. -/
structure Env where
  f4 : Bytes → Bytes → Bytes → Nat → Int × Bytes
  f5 : Bytes → Bytes → Bytes → Nat → Bytes → Nat → Bytes → Int × Bytes × Bytes
  f6 : Bytes → Bytes → Bytes → Bytes → Bytes → Nat → Bytes → Nat → Bytes → Int × Bytes
  g2 : Bytes → Bytes → Bytes → Bytes → Int × Nat
  gen_dhkey : Bytes → Bytes → Bytes → Int × Bytes
  rand_byte : Int × Nat
  gen_pair_rand : Int × Bytes
  gen_pub_priv : Int × Bytes × Bytes
  addrs : Int × Nat × Bytes × Nat × Bytes
  our_id_addr : Nat × Bytes
  peer_addr : Int × Nat × Bytes
  pair_confirm_tx : Bytes → Int
  pair_random_tx : Bytes → Int
  dhkey_check_tx : Bytes → Int
  public_key_tx : Bytes → Bytes → Int

/-- Modelled from the spec: SM protocol error codes (host/ble_sm.h is not
under src/).  Per the error taxonomy of spec section 7 these are distinct
Security-Manager codes; values follow the Bluetooth Core Specification:
Confirm Value Failed 0x04, Unspecified Reason 0x08, DHKey Check Failed
0x0b. -/
def BLE_SM_ERR_CONFIRM_MISMATCH : Nat := 4

/-- Modelled from the spec: the generic Unspecified Reason SM error code
0x08 (host/ble_sm.h is not under src/). -/
def BLE_SM_ERR_UNSPECIFIED : Nat := 8

/-- Modelled from the spec: the DHKey Check Failed SM error code 0x0b
(host/ble_sm.h is not under src/). -/
def BLE_SM_ERR_DHKEY : Nat := 11

/-- Modelled from the spec: `BLE_HS_SM_US_ERR(x)` maps a local SM error
code into the host status-code space (ble_hs.h is not under src/); it is
injective on nonzero codes, which is all the SC code relies on. -/
def BLE_HS_SM_US_ERR (code : Nat) : Int := if code = 0 then 0 else 1280 + code

/-- Modelled from the spec: the MITM bit 0x04 of the authreq byte
(`BLE_SM_PAIR_AUTHREQ_MITM`, host/ble_sm.h is not under src/). -/
def BLE_SM_PAIR_AUTHREQ_MITM : Nat := 4

/-- The constant `BLE_SM_SC_PASSKEY_BITS` (line 703). -/
def BLE_SM_SC_PASSKEY_BITS : Nat := 20

/-- Modelled from the spec: `ble_sm_our_pair_rand` (ble_sm.c, not under
src/): a procedure's own 128-bit nonce; the initiator's is the master rand
`randm`, the responder's the slave rand `rands` (spec section 3:
"local and peer 128-bit nonces"). -/
def ble_sm_our_pair_rand (proc : Proc) : Bytes :=
  if proc.flags.initiator then proc.randm else proc.rands

/-- Modelled from the spec: `ble_sm_their_pair_rand` (ble_sm.c, not under
src/): the peer's 128-bit nonce, the mirror of `ble_sm_our_pair_rand`. -/
def ble_sm_their_pair_rand (proc : Proc) : Bytes :=
  if proc.flags.initiator then proc.rands else proc.randm

/-- Writes a procedure's own pair rand slot (the buffer
`ble_sm_our_pair_rand(proc)` points into). -/
def setOurPairRand (proc : Proc) (r : Bytes) : Proc :=
  if proc.flags.initiator then { proc with randm := r } else { proc with rands := r }

/-- The initiator passkey-action table `ble_sm_sc_init_pka` (lines
738-745), indexed `[responder io_cap][initiator io_cap]`. -/
def ble_sm_sc_init_pka : List (List PkAct) :=
  [ [PkAct.none, PkAct.none,   PkAct.input, PkAct.none, PkAct.input],
    [PkAct.none, PkAct.numcmp, PkAct.input, PkAct.none, PkAct.input],
    [PkAct.disp, PkAct.disp,   PkAct.input, PkAct.none, PkAct.disp],
    [PkAct.none, PkAct.none,   PkAct.none,  PkAct.none, PkAct.none],
    [PkAct.disp, PkAct.numcmp, PkAct.input, PkAct.none, PkAct.numcmp] ]

/-- The responder passkey-action table `ble_sm_sc_resp_pka` (lines
751-758); the code indexes it `[pair_rsp.io_cap][pair_req.io_cap]`
(lines 775-776). -/
def ble_sm_sc_resp_pka : List (List PkAct) :=
  [ [PkAct.none,  PkAct.none,   PkAct.disp,  PkAct.none, PkAct.disp],
    [PkAct.none,  PkAct.numcmp, PkAct.disp,  PkAct.none, PkAct.numcmp],
    [PkAct.input, PkAct.input,  PkAct.input, PkAct.none, PkAct.input],
    [PkAct.none,  PkAct.none,   PkAct.none,  PkAct.none, PkAct.none],
    [PkAct.input, PkAct.numcmp, PkAct.disp,  PkAct.none, PkAct.numcmp] ]

/-- Two-dimensional table lookup; indices are `Fin 5` so the defaults are
unreachable for the 5x5 tables. -/
def pkaLookup (t : List (List PkAct)) (r c : Fin 5) : PkAct :=
  (t.getD r.val []).getD c.val PkAct.none

/-- The action-selection part of `ble_sm_sc_passkey_action` (lines
765-777): OOB if either side advertises OOB data, None if neither requires
MITM, otherwise the role's 5x5 table indexed by
`[pair_rsp.io_cap][pair_req.io_cap]`. -/
def ble_sm_sc_passkey_action_val (proc : Proc) : PkAct :=
  if proc.pair_req.oob_data_flag || proc.pair_rsp.oob_data_flag then
    PkAct.oob
  else if proc.pair_req.authreq &&& BLE_SM_PAIR_AUTHREQ_MITM = 0 ∧
          proc.pair_rsp.authreq &&& BLE_SM_PAIR_AUTHREQ_MITM = 0 then
    PkAct.none
  else if proc.flags.initiator then
    pkaLookup ble_sm_sc_init_pka proc.pair_rsp.io_cap proc.pair_req.io_cap
  else
    pkaLookup ble_sm_sc_resp_pka proc.pair_rsp.io_cap proc.pair_req.io_cap

/-- The full `ble_sm_sc_passkey_action` (lines 760-806): selects the
action, then sets `proc->pair_alg` and the F_AUTHENTICATED flag (set for
every method except Just Works). -/
def ble_sm_sc_passkey_action (proc : Proc) : Proc × PkAct :=
  let action := ble_sm_sc_passkey_action_val proc
  let proc' :=
    match action with
    | PkAct.none => { proc with pair_alg := PairAlg.jw }
    | PkAct.oob =>
        { proc with pair_alg := PairAlg.oob,
                    flags := { proc.flags with authenticated := true } }
    | PkAct.input =>
        { proc with pair_alg := PairAlg.passkey,
                    flags := { proc.flags with authenticated := true } }
    | PkAct.disp =>
        { proc with pair_alg := PairAlg.passkey,
                    flags := { proc.flags with authenticated := true } }
    | PkAct.numcmp =>
        { proc with pair_alg := PairAlg.numcmp,
                    flags := { proc.flags with authenticated := true } }
  (proc', action)

/-- Modelled from the spec: `ble_sm_pkact_state` (ble_sm.c, not under
src/): the state at which each user interaction suspends the procedure
(spec sections 4.3 and 5): passkey display/input and OOB injection suspend
the Confirm step; the numeric-comparison confirmation suspends the
DHKeyCheck step; no action never matches a state. -/
def ble_sm_pkact_state (action : PkAct) : ProcState :=
  match action with
  | PkAct.none => ProcState.nostate
  | PkAct.oob => ProcState.confirm
  | PkAct.input => ProcState.confirm
  | PkAct.disp => ProcState.confirm
  | PkAct.numcmp => ProcState.dhkeyCheck

/-- Modelled from the spec: `ble_sm_proc_can_advance` (ble_sm.c, not under
src/): the state machine does not proceed past a user-interaction request
until the application supplies the outcome (spec section 5); the procedure
can advance iff its pending action does not suspend at the current state,
or the IO outcome has been injected, or advance was flagged on IO. -/
def ble_sm_proc_can_advance (proc : Proc) : Bool :=
  ble_sm_pkact_state (ble_sm_sc_passkey_action_val proc) ≠ proc.state
  || proc.flags.ioInjected || proc.flags.advanceOnIo

/-- `ble_sm_sc_ensure_keys_generated` (lines 808-824): lazily generates the
process-wide ECDH key pair once; on generator failure the flag stays
clear and the code is surfaced. -/
def ble_sm_sc_ensure_keys_generated (env : Env) (sc : ScKeyState) :
    ScKeyState × Int × List Call :=
  if ¬ sc.keys_generated then
    let g := env.gen_pub_priv
    if g.1 ≠ 0 then
      (sc, g.1, [Call.genPubPriv])
    else
      ({ keys_generated := true, pub_key := g.2.1, priv_key := g.2.2 }, 0,
       [Call.genPubPriv])
  else
    (sc, 0, [])

/-- `ble_sm_sc_initiator_txes_confirm` (lines 831-838): the initiator does
not send a confirm when the pairing algorithm is Just Works or Numeric
Comparison. -/
def ble_sm_sc_initiator_txes_confirm (proc : Proc) : Bool :=
  proc.pair_alg ≠ PairAlg.jw ∧ proc.pair_alg ≠ PairAlg.numcmp

/-- `ble_sm_sc_responder_verifies_random` (lines 846-853): the responder
does not verify the initiator's random number when the pairing algorithm
is Just Works or Numeric Comparison. -/
def ble_sm_sc_responder_verifies_random (proc : Proc) : Bool :=
  proc.pair_alg ≠ PairAlg.jw ∧ proc.pair_alg ≠ PairAlg.numcmp

/-- `ble_sm_sc_gen_ri` (lines 859-892): generates the round value Ri.
JW/NUMCMP: 0.  PASSKEY: 0x80 OR the bit of `proc->tk` at byte
`bits_exchanged / 8`, bit `bits_exchanged % 8`, then increments
`passkey_bits_exchanged`.  OOB: one byte from the RNG. -/
def ble_sm_sc_gen_ri (env : Env) (proc : Proc) : Proc × Int × List Call :=
  match proc.pair_alg with
  | PairAlg.jw => ({ proc with ri := 0 }, 0, [])
  | PairAlg.numcmp => ({ proc with ri := 0 }, 0, [])
  | PairAlg.passkey =>
      let byte := proc.passkey_bits_exchanged / 8
      let bit := proc.passkey_bits_exchanged % 8
      let b := if (proc.tk.getD byte 0) &&& (1 <<< bit) ≠ 0 then 1 else 0
      ({ proc with ri := 0x80 ||| b,
                   passkey_bits_exchanged := proc.passkey_bits_exchanged + 1 },
       0, [])
  | PairAlg.oob =>
      let r := env.rand_byte
      if r.1 ≠ 0 then (proc, r.1, [Call.randByte])
      else ({ proc with ri := r.2 }, 0, [Call.randByte])

/-- A Result carrying an error: `app_status = rc`, `enc_cb = 1`,
`sm_err = BLE_SM_ERR_UNSPECIFIED` (the pattern repeated in the source). -/
def Result.fail (res : Result) (rc : Int) : Result :=
  { res with app_status := rc, enc_cb := true, sm_err := BLE_SM_ERR_UNSPECIFIED }

/-- `ble_sm_sc_confirm_go` (lines 894-928): generate Ri, compute the
confirm value via f4 over (own public key, peer public key X, own nonce,
Ri), transmit it; only a responder advances its state (to RANDOM). -/
def ble_sm_sc_confirm_go (env : Env) (sc : ScKeyState) (proc : Proc)
    (res : Result) : Proc × Result × List Call :=
  let g := ble_sm_sc_gen_ri env proc
  let proc1 := g.1
  if g.2.1 ≠ 0 then
    (proc1, res.fail g.2.1, g.2.2)
  else
    let f := env.f4 sc.pub_key proc1.pub_key_peer.x (ble_sm_our_pair_rand proc1)
               proc1.ri
    let cs2 := g.2.2 ++ [Call.f4 sc.pub_key proc1.pub_key_peer.x
                           (ble_sm_our_pair_rand proc1) proc1.ri]
    if f.1 ≠ 0 then
      (proc1, res.fail f.1, cs2)
    else
      let rc3 := env.pair_confirm_tx f.2
      let cs3 := cs2 ++ [Call.txConfirm f.2]
      if rc3 ≠ 0 then
        (proc1, res.fail rc3, cs3)
      else if ¬ proc1.flags.initiator then
        ({ proc1 with state := ProcState.random }, res, cs3)
      else
        (proc1, res, cs3)

/-- `ble_sm_sc_gen_numcmp` (lines 930-949): computes g2 over the two
public keys (initiator's first) and both nonces, writing the 6-digit
comparison value into the result. -/
def ble_sm_sc_gen_numcmp (env : Env) (sc : ScKeyState) (proc : Proc)
    (res : Result) : Result × List Call :=
  let pka := if proc.flags.initiator then sc.pub_key else proc.pub_key_peer.x
  let pkb := if proc.flags.initiator then proc.pub_key_peer.x else sc.pub_key
  let g := env.g2 pka pkb proc.randm proc.rands
  let cs := [Call.g2 pka pkb proc.randm proc.rands]
  if g.1 ≠ 0 then
    ({ res with app_status := g.1, sm_err := BLE_SM_ERR_UNSPECIFIED,
                enc_cb := true }, cs)
  else
    ({ res with app_status := 0, numcmp := g.2 }, cs)

/-- `ble_sm_sc_random_advance` (lines 955-973): the loop-continuation
decision at the end of the Random step.  Unless the method is PasskeyEntry
with fewer than `BLE_SM_SC_PASSKEY_BITS` bits exchanged, go to DHKEY_CHECK;
otherwise return to CONFIRM and generate a fresh own nonce. -/
def ble_sm_sc_random_advance (env : Env) (proc : Proc) :
    Proc × Int × List Call :=
  if proc.pair_alg ≠ PairAlg.passkey ∨
     proc.passkey_bits_exchanged ≥ BLE_SM_SC_PASSKEY_BITS then
    ({ proc with state := ProcState.dhkeyCheck }, 0, [])
  else
    let proc1 := { proc with state := ProcState.confirm }
    let g := env.gen_pair_rand
    if g.1 ≠ 0 then
      (proc1, g.1, [Call.genPairRand])
    else
      (setOurPairRand proc1 g.2, 0, [Call.genPairRand])

/-- The tail of `ble_sm_sc_random_rx` (lines 1049-1096): derive the MAC
key and LTK via f5, persist the LTK into both key-material records
(marked valid), then advance (initiator: `ble_sm_sc_random_advance`,
rechecking the passkey action and possibly producing the numeric
comparison; responder: request immediate execution of the next step). -/
def ble_sm_sc_random_rx_tail (env : Env) (sc : ScKeyState) (proc : Proc)
    (res : Result) (cs : List Call) : Proc × Result × List Call :=
  let a := env.addrs
  if a.1 ≠ 0 then
    ( proc,
      { res with app_status := a.1, sm_err := BLE_SM_ERR_UNSPECIFIED,
                 enc_cb := true }, cs)
  else
    let f := env.f5 proc.dhkey proc.randm proc.rands a.2.1 a.2.2.1 a.2.2.2.1
               a.2.2.2.2
    let cs2 := cs ++ [Call.f5 proc.dhkey proc.randm proc.rands a.2.1 a.2.2.1
                        a.2.2.2.1 a.2.2.2.2]
    if f.1 ≠ 0 then
      ( proc,
        { res with app_status := f.1, sm_err := BLE_SM_ERR_UNSPECIFIED,
                   enc_cb := true }, cs2)
    else
      let keys : Keys :=
        { ltk := f.2.2, ltk_valid := true, ediv := 0, rand_val := 0,
          ediv_rand_valid := true }
      let proc1 := { proc with mackey := f.2.1, ltk := f.2.2,
                               our_keys := keys, peer_keys := keys }
      if proc1.flags.initiator then
        -- the source ignores ble_sm_sc_random_advance's return code here
        let adv := ble_sm_sc_random_advance env proc1
        let pa := ble_sm_sc_passkey_action adv.1
        if ble_sm_pkact_state pa.2 = pa.1.state ∧ ¬ pa.1.flags.ioInjected then
          let gn := ble_sm_sc_gen_numcmp env sc pa.1 { res with pkact := pa.2 }
          (pa.1, gn.1, cs2 ++ adv.2.2 ++ gn.2)
        else
          (pa.1, { res with execute := true }, cs2 ++ adv.2.2)
      else
        (proc1, { res with execute := true }, cs2)

/-- `ble_sm_sc_random_rx` (lines 1012-1096): on receiving the peer's
nonce, when the procedure is the initiator or
`ble_sm_sc_responder_verifies_random` holds, recompute the expected
confirm value via f4 over (peer public key X, own public key, peer nonce,
Ri) and compare it against the stored peer confirm value; a mismatch
aborts with the ConfirmMismatch app status and the Unspecified SM error
code.  Otherwise (or when verification is skipped) fall through to the
key-derivation tail. -/
def ble_sm_sc_random_rx (env : Env) (sc : ScKeyState) (proc : Proc)
    (res : Result) : Proc × Result × List Call :=
  if proc.flags.initiator || ble_sm_sc_responder_verifies_random proc then
    let f :=
      env.f4 proc.pub_key_peer.x sc.pub_key (ble_sm_their_pair_rand proc) proc.ri
    let cs := [Call.f4 proc.pub_key_peer.x sc.pub_key
                 (ble_sm_their_pair_rand proc) proc.ri]
    if f.1 ≠ 0 then
      ( proc,
        { res with app_status := f.1, sm_err := BLE_SM_ERR_UNSPECIFIED,
                   enc_cb := true }, cs)
    else if proc.confirm_peer ≠ f.2 then
      -- Random number mismatch (lines 1040-1046).
      ( proc,
        { res with app_status := BLE_HS_SM_US_ERR BLE_SM_ERR_CONFIRM_MISMATCH,
                   sm_err := BLE_SM_ERR_UNSPECIFIED, enc_cb := true }, cs)
    else
      ble_sm_sc_random_rx_tail env sc proc res cs
  else
    ble_sm_sc_random_rx_tail env sc proc res []

/-- `ble_sm_sc_public_key_go` (lines 1098-1135): ensure the key pair,
transmit the local public key; a responder then enters CONFIRM and, when
it can advance and the initiator will not send a confirm, requests
immediate execution of its own Confirm step. -/
def ble_sm_sc_public_key_go (env : Env) (sc : ScKeyState) (proc : Proc)
    (res : Result) : ScKeyState × Proc × Result × List Call :=
  let e := ble_sm_sc_ensure_keys_generated env sc
  let sc1 := e.1
  if e.2.1 ≠ 0 then
    (sc1, proc, res.fail e.2.1, e.2.2)
  else
    let cx := sc1.pub_key.take 32
    let cy := (sc1.pub_key.drop 32).take 32
    let rc2 := env.public_key_tx cx cy
    let cs2 := e.2.2 ++ [Call.txPublicKey cx cy]
    if rc2 ≠ 0 then
      (sc1, proc, res.fail rc2, cs2)
    else
      let pa := ble_sm_sc_passkey_action proc
      let res1 :=
        if ble_sm_pkact_state pa.2 = ProcState.confirm then
          { res with pkact := pa.2 }
        else res
      if ¬ pa.1.flags.initiator then
        let proc2 := { pa.1 with state := ProcState.confirm }
        if ble_sm_proc_can_advance proc2 ∧
           ¬ ble_sm_sc_initiator_txes_confirm proc2 then
          (sc1, proc2, { res1 with execute := true }, cs2)
        else
          (sc1, proc2, res1, cs2)
      else
        (sc1, pa.1, res1, cs2)

/-- The procedure-processing core of `ble_sm_sc_public_key_rx` (lines
1170-1191, the branch where a procedure in state PUBLIC_KEY was found):
store the peer public key, compute the DH shared secret; failure aborts
with the DHKey SM error; an initiator enters CONFIRM and requests
execution only when it can advance and it transmits a confirm; a
responder always requests execution. -/
def ble_sm_sc_public_key_rx_proc (env : Env) (sc : ScKeyState) (proc : Proc)
    (cmd : PubKeyCmd) (res : Result) : Proc × Result × List Call :=
  let proc1 := { proc with pub_key_peer := cmd }
  let g := env.gen_dhkey proc1.pub_key_peer.x proc1.pub_key_peer.y sc.priv_key
  let cs := [Call.genDhkey proc1.pub_key_peer.x proc1.pub_key_peer.y sc.priv_key]
  if g.1 ≠ 0 then
    ( proc1,
      { res with app_status := BLE_HS_SM_US_ERR BLE_SM_ERR_DHKEY,
                 sm_err := BLE_SM_ERR_DHKEY, enc_cb := true }, cs)
  else
    let proc2 := { proc1 with dhkey := g.2 }
    if proc2.flags.initiator then
      let proc3 := { proc2 with state := ProcState.confirm }
      if ble_sm_proc_can_advance proc3 ∧
         ble_sm_sc_initiator_txes_confirm proc3 then
        (proc3, { res with execute := true }, cs)
      else
        (proc3, res, cs)
    else
      (proc2, { res with execute := true }, cs)

/-- `ble_sm_sc_dhkey_check_iocap` (lines 1196-1203): the packed
[io_cap, oob_data_flag, authreq] triple of a pairing command. -/
def ble_sm_sc_dhkey_check_iocap (pair_cmd : PairCmd) : Bytes :=
  [pair_cmd.io_cap.val, if pair_cmd.oob_data_flag then 1 else 0,
   pair_cmd.authreq]

/-- `ble_sm_sc_dhkey_check_go` (lines 1205-1253): compute the check value
via f6 over (MAC key, own nonce, peer nonce, tk, own capability triple,
own address, peer address) and transmit it; only a responder advances its
state (to LTK_START). -/
def ble_sm_sc_dhkey_check_go (env : Env) (proc : Proc) (res : Result) :
    Proc × Result × List Call :=
  let iocap :=
    if proc.flags.initiator then ble_sm_sc_dhkey_check_iocap proc.pair_req
    else ble_sm_sc_dhkey_check_iocap proc.pair_rsp
  let oa := env.our_id_addr
  let p := env.peer_addr
  if p.1 ≠ 0 then
    (proc, res.fail p.1, [])
  else
    let f :=
      env.f6 proc.mackey (ble_sm_our_pair_rand proc)
        (ble_sm_their_pair_rand proc) proc.tk iocap oa.1 oa.2 p.2.1 p.2.2
    let cs := [Call.f6 proc.mackey (ble_sm_our_pair_rand proc)
                 (ble_sm_their_pair_rand proc) proc.tk iocap oa.1 oa.2
                 p.2.1 p.2.2]
    if f.1 ≠ 0 then
      (proc, res.fail f.1, cs)
    else
      let rc3 := env.dhkey_check_tx f.2
      let cs2 := cs ++ [Call.txDhkeyCheck f.2]
      if rc3 ≠ 0 then
        (proc, res.fail rc3, cs2)
      else if ¬ proc.flags.initiator then
        ({ proc with state := ProcState.ltkStart }, res, cs2)
      else
        (proc, res, cs2)

/-- `ble_sm_dhkey_check_process` (lines 1255-1319): compute the expected
check value via f6 with the nonce order and the address roles swapped and
the peer's capability triple; a mismatch aborts with the DHKey SM error
(sent to the peer) without touching the procedure; on a match, flag
advance-on-IO when a numeric-comparison confirmation is pending and, when
the procedure can advance, the initiator enters ENC_START and execution of
the next step is requested. -/
def ble_sm_dhkey_check_process (env : Env) (proc : Proc) (cmdValue : Bytes)
    (res : Result) : Proc × Result × List Call :=
  let iocap :=
    if proc.flags.initiator then ble_sm_sc_dhkey_check_iocap proc.pair_rsp
    else ble_sm_sc_dhkey_check_iocap proc.pair_req
  let oa := env.our_id_addr
  let p := env.peer_addr
  if p.1 ≠ 0 then
    ( proc,
      { res with app_status := p.1, sm_err := BLE_SM_ERR_UNSPECIFIED,
                 enc_cb := true }, [])
  else
    let f :=
      env.f6 proc.mackey (ble_sm_their_pair_rand proc)
        (ble_sm_our_pair_rand proc) proc.tk iocap p.2.1 p.2.2 oa.1 oa.2
    let cs := [Call.f6 proc.mackey (ble_sm_their_pair_rand proc)
                 (ble_sm_our_pair_rand proc) proc.tk iocap p.2.1 p.2.2
                 oa.1 oa.2]
    if f.1 ≠ 0 then
      ( proc,
        { res with app_status := f.1, sm_err := BLE_SM_ERR_UNSPECIFIED,
                   enc_cb := true }, cs)
    else if cmdValue ≠ f.2 then
      ( proc,
        { res with sm_err := BLE_SM_ERR_DHKEY,
                   app_status := BLE_HS_SM_US_ERR BLE_SM_ERR_DHKEY,
                   enc_cb := true }, cs)
    else
      let pa := ble_sm_sc_passkey_action proc
      let proc2 :=
        if ble_sm_pkact_state pa.2 = pa.1.state then
          { pa.1 with flags := { pa.1.flags with advanceOnIo := true } }
        else pa.1
      if ble_sm_proc_can_advance proc2 then
        if proc2.flags.initiator then
          ({ proc2 with state := ProcState.encStart },
           { res with execute := true }, cs)
        else
          (proc2, { res with execute := true }, cs)
      else
        (proc2, res, cs)

/-- Modelled from the spec: the driving event loop (ble_sm.c, not under
src/) invokes the next state's go handler exactly when a step's Result
carries the execute flag (spec section 4.5). -/
def stepExecutesNext (res : Result) : Bool := res.execute

/-- One completed Confirm/Random round as seen by one device: the Confirm
step runs `ble_sm_sc_gen_ri` (via `ble_sm_sc_confirm_go`) and the Random
step ends with the loop decision `ble_sm_sc_random_advance`. -/
def passkeyRoundStep (env : Env) (proc : Proc) : Proc :=
  (ble_sm_sc_random_advance env (ble_sm_sc_gen_ri env proc).1).1

/-- Iterates `passkeyRoundStep` n times. -/
def passkeyRoundIter (env : Env) (proc : Proc) : Nat → Proc
  | 0 => proc
  | n + 1 => passkeyRoundStep env (passkeyRoundIter env proc n)

/-- The value held in a little-endian byte buffer (how the 4-byte passkey
sits in `proc->tk`): bit index b of the value is bit b % 8 of byte
b / 8. -/
def leVal : Bytes → Nat
  | [] => 0
  | b :: t => b + 256 * leVal t

/-- A crypto/transport environment where every collaborator succeeds with
fixed outputs; used for the concrete evaluations. -/
def envT : Env :=
  { f4 := fun _ _ _ _ => (0, List.replicate 16 7)
    f5 := fun _ _ _ _ _ _ _ => (0, List.replicate 16 2, List.replicate 16 3)
    f6 := fun _ _ _ _ _ _ _ _ _ => (0, List.replicate 16 9)
    g2 := fun _ _ _ _ => (0, 123456)
    gen_dhkey := fun _ _ _ => (0, List.replicate 32 5)
    rand_byte := (0, 66)
    gen_pair_rand := (0, List.replicate 16 8)
    gen_pub_priv := (0, List.replicate 64 1, List.replicate 32 2)
    addrs := (0, 0, List.replicate 6 1, 1, List.replicate 6 2)
    our_id_addr := (0, List.replicate 6 1)
    peer_addr := (0, 1, List.replicate 6 2)
    pair_confirm_tx := fun _ => 0
    pair_random_tx := fun _ => 0
    dhkey_check_tx := fun _ => 0
    public_key_tx := fun _ _ => 0 }

/-- A generated process-wide key state. -/
def scT : ScKeyState :=
  { keys_generated := true, pub_key := List.replicate 64 1,
    priv_key := List.replicate 32 2 }

/-- A fresh (not yet generated) process-wide key state. -/
def scFresh : ScKeyState :=
  { keys_generated := false, pub_key := [], priv_key := [] }

/-- Empty key material. -/
def keysZero : Keys :=
  { ltk := List.replicate 16 0, ltk_valid := false, ediv := 0, rand_val := 0,
    ediv_rand_valid := false }

/-- A no-input-no-output pairing command without MITM or OOB. -/
def pairCmdJW : PairCmd := { io_cap := 3, oob_data_flag := false, authreq := 0 }

/-- A responder-role Just Works procedure sitting in the Random state,
whose stored peer confirm value does not match what f4 recomputation
under `envT` would produce. -/
def procRespJW : Proc :=
  { conn_handle := 1, state := ProcState.random,
    flags := { initiator := false, sc := true, authenticated := false,
               ioInjected := false, advanceOnIo := false },
    pair_alg := PairAlg.jw, pair_req := pairCmdJW, pair_rsp := pairCmdJW,
    pub_key_peer := { x := List.replicate 32 4, y := List.replicate 32 5 },
    ri := 0, passkey_bits_exchanged := 0, tk := List.replicate 16 0,
    randm := List.replicate 16 10, rands := List.replicate 16 11,
    confirm_peer := List.replicate 16 1, dhkey := List.replicate 32 5,
    mackey := [], ltk := [], our_keys := keysZero, peer_keys := keysZero }

/-- The same procedure in the initiator role. -/
def procInitJW : Proc :=
  { procRespJW with
    flags := { procRespJW.flags with initiator := true } }

/-- An initiator-role procedure with MITM required on both sides, no OOB,
initiator io_cap KeyboardDisplay (4) and responder io_cap DisplayYesNo
(1). -/
def procCapInit : Proc :=
  { procRespJW with
    flags := { procRespJW.flags with initiator := true },
    pair_req := { io_cap := 4, oob_data_flag := false,
                  authreq := BLE_SM_PAIR_AUTHREQ_MITM },
    pair_rsp := { io_cap := 1, oob_data_flag := false,
                  authreq := BLE_SM_PAIR_AUTHREQ_MITM } }

/-- The identical negotiated capabilities, resolved in the responder
role. -/
def procCapResp : Proc :=
  { procCapInit with
    flags := { procCapInit.flags with initiator := false } }

/-- A responder-role PasskeyEntry procedure with no bits exchanged yet. -/
def procPasskey : Proc :=
  { procRespJW with
    pair_alg := PairAlg.passkey,
    pair_req := { io_cap := 2, oob_data_flag := false,
                  authreq := BLE_SM_PAIR_AUTHREQ_MITM },
    pair_rsp := { io_cap := 0, oob_data_flag := false,
                  authreq := BLE_SM_PAIR_AUTHREQ_MITM },
    state := ProcState.confirm,
    tk := [90, 13, 1, 0] ++ List.replicate 12 0 }

/-- An initiator-role procedure in the DHKeyCheck state. -/
def procDhk : Proc :=
  { procInitJW with
    state := ProcState.dhkeyCheck,
    mackey := List.replicate 16 2, ltk := List.replicate 16 3 }

/-- A peer public key command. -/
def pubCmd : PubKeyCmd :=
  { x := List.replicate 32 4, y := List.replicate 32 5 }

/-- The Just Works initiator waiting for the peer public key. -/
def procPubInit : Proc := { procInitJW with state := ProcState.publicKey }

/-- The Just Works responder waiting for the peer public key. -/
def procPubResp : Proc := { procRespJW with state := ProcState.publicKey }

/-- A PasskeyEntry initiator waiting for the peer public key whose user
IO has already been injected. -/
def procPubPkInit : Proc :=
  { procPasskey with
    state := ProcState.publicKey,
    flags := { procPasskey.flags with
                 initiator := true,
                 ioInjected := true } }

/-- C1: the claim states that in the Random step a responder always
recomputes and compares the confirm value and an initiator does so only
for PasskeyEntry/OutOfBand.  The code does the opposite
(`proc->flags & BLE_SM_PROC_F_INITIATOR || ble_sm_sc_responder_verifies_random`,
line 1023): here a responder running Just Works, whose stored peer
confirm value disagrees with the f4 recomputation, is processed without
any f4 recomputation and without any mismatch abort - the claim's
condition would have required verification and an abort. -/
theorem C1_responder_jw_does_not_verify :
    procRespJW.flags.initiator = false ∧
    procRespJW.pair_alg = PairAlg.jw ∧
    procRespJW.confirm_peer ≠
      (envT.f4 procRespJW.pub_key_peer.x scT.pub_key
        (ble_sm_their_pair_rand procRespJW) procRespJW.ri).2 ∧
    (ble_sm_sc_random_rx envT scT procRespJW Result.zero).2.2.any Call.isF4
      = false ∧
    (ble_sm_sc_random_rx envT scT procRespJW Result.zero).2.1.app_status = 0 := by
  decide

/-- C2: evaluating the capability resolver at (initiator io_cap
KeyboardDisplay = 4, responder io_cap DisplayYesNo = 1), MITM required on
both sides and no OOB data: the initiator-role table yields INPUT and
hence PasskeyEntry while the responder-role table yields NUMCMP and hence
NumericComparison, so the two peers of one procedure resolve different
authentication methods - the resolver is not symmetric. -/
theorem C2_resolver_asymmetry_eval :
    procCapResp = { procCapInit with
                    flags := { procCapInit.flags with initiator := false } } ∧
    (ble_sm_sc_passkey_action procCapInit).1.pair_alg = PairAlg.passkey ∧
    (ble_sm_sc_passkey_action procCapResp).1.pair_alg = PairAlg.numcmp ∧
    (ble_sm_sc_passkey_action procCapInit).1.pair_alg ≠
      (ble_sm_sc_passkey_action procCapResp).1.pair_alg := by
  decide

/-- C3: the claim states the LTK is only written into the valid-marked
key-material fields after the received DHKey-check value compared equal to
the expected f6 value.  In the code the write happens in the Random step:
this responder Just Works procedure leaves `ble_sm_sc_random_rx` with both
LTK records written and marked valid while its state is still RANDOM and
no f6 value was ever computed, so no DHKey-check comparison has taken
place. -/
theorem C3_ltk_written_before_dhkey_check :
    procRespJW.our_keys.ltk_valid = false ∧
    (ble_sm_sc_random_rx envT scT procRespJW Result.zero).1.our_keys.ltk_valid
      = true ∧
    (ble_sm_sc_random_rx envT scT procRespJW Result.zero).1.peer_keys.ltk_valid
      = true ∧
    (ble_sm_sc_random_rx envT scT procRespJW Result.zero).1.state
      = ProcState.random ∧
    (ble_sm_sc_random_rx envT scT procRespJW Result.zero).2.2.any Call.isF6
      = false := by
  decide

/-- C9: `ble_sm_sc_ensure_keys_generated` is idempotent.  The first
successful call invokes the ECDH generator once, stores the key pair and
marks it generated; every call in the generated state succeeds without
invoking the generator, so the public key observed after a second call
equals the one observed after the first; a failing generation surfaces
the code and does not mark the keys generated. -/
theorem C9_ensure_keys_idempotent (env : Env) (sc : ScKeyState)
    (pk sk : Bytes)
    (hgen : env.gen_pub_priv = (0, pk, sk))
    (hfresh : sc.keys_generated = false) :
    ble_sm_sc_ensure_keys_generated env sc =
      ({ keys_generated := true, pub_key := pk, priv_key := sk }, 0,
       [Call.genPubPriv]) ∧
    (∀ sc2 : ScKeyState, sc2.keys_generated = true →
       ble_sm_sc_ensure_keys_generated env sc2 = (sc2, 0, [])) ∧
    (ble_sm_sc_ensure_keys_generated env
        (ble_sm_sc_ensure_keys_generated env sc).1).1.pub_key =
      (ble_sm_sc_ensure_keys_generated env sc).1.pub_key ∧
    (∀ env2 : Env, ∀ rc : Int, ∀ p s : Bytes, rc ≠ 0 →
       env2.gen_pub_priv = (rc, p, s) →
       ble_sm_sc_ensure_keys_generated env2 sc = (sc, rc, [Call.genPubPriv]) ∧
       (ble_sm_sc_ensure_keys_generated env2 sc).1.keys_generated = false) := by
  have h1 : ble_sm_sc_ensure_keys_generated env sc =
      ({ keys_generated := true, pub_key := pk, priv_key := sk }, 0,
       [Call.genPubPriv]) := by
    simp [ble_sm_sc_ensure_keys_generated, hfresh, hgen]
  have h2 : ∀ sc2 : ScKeyState, sc2.keys_generated = true →
      ble_sm_sc_ensure_keys_generated env sc2 = (sc2, 0, []) := by
    intro sc2 hsc2
    simp [ble_sm_sc_ensure_keys_generated, hsc2]
  refine ⟨h1, h2, ?_, ?_⟩
  · rw [h1, h2 _ rfl]
  · intro env2 rc p s hrc hgen2
    have h3 : ble_sm_sc_ensure_keys_generated env2 sc =
        (sc, rc, [Call.genPubPriv]) := by
      simp [ble_sm_sc_ensure_keys_generated, hfresh, hgen2, hrc]
    exact ⟨h3, by rw [h3]; exact hfresh⟩

/-- C5: in `ble_sm_dhkey_check_process` the expected value is computed via
f6 with the nonce order and the address roles swapped and with the peer's
capability triple; every received check value differing from it aborts
with the DHKey-check-failed SM error code (distinct from the
ConfirmMismatch code, both to the peer and in the application status),
leaves the procedure untouched (so no transition to ENC_START and no LTK
hand-off) and does not request execution of a next step. -/
theorem C5_dhkey_check_mismatch_aborts (env : Env) (proc : Proc)
    (cmdValue : Bytes) (res : Result) (pat oat : Nat) (pa oa exp : Bytes)
    (hpeer : env.peer_addr = (0, pat, pa))
    (hour : env.our_id_addr = (oat, oa))
    (hf6 : env.f6 proc.mackey (ble_sm_their_pair_rand proc)
             (ble_sm_our_pair_rand proc) proc.tk
             (if proc.flags.initiator then
                ble_sm_sc_dhkey_check_iocap proc.pair_rsp
              else ble_sm_sc_dhkey_check_iocap proc.pair_req)
             pat pa oat oa = (0, exp))
    (hne : cmdValue ≠ exp)
    (hstate : proc.state = ProcState.dhkeyCheck)
    (hexec : res.execute = false) :
    ble_sm_dhkey_check_process env proc cmdValue res =
      (proc,
       { res with sm_err := BLE_SM_ERR_DHKEY,
                  app_status := BLE_HS_SM_US_ERR BLE_SM_ERR_DHKEY,
                  enc_cb := true },
       [Call.f6 proc.mackey (ble_sm_their_pair_rand proc)
          (ble_sm_our_pair_rand proc) proc.tk
          (if proc.flags.initiator then
             ble_sm_sc_dhkey_check_iocap proc.pair_rsp
           else ble_sm_sc_dhkey_check_iocap proc.pair_req)
          pat pa oat oa]) ∧
    (ble_sm_dhkey_check_process env proc cmdValue res).1.state
      ≠ ProcState.encStart ∧
    (ble_sm_dhkey_check_process env proc cmdValue res).1.our_keys.ltk_valid
      = proc.our_keys.ltk_valid ∧
    stepExecutesNext (ble_sm_dhkey_check_process env proc cmdValue res).2.1
      = false ∧
    BLE_SM_ERR_DHKEY ≠ BLE_SM_ERR_CONFIRM_MISMATCH ∧
    BLE_HS_SM_US_ERR BLE_SM_ERR_DHKEY
      ≠ BLE_HS_SM_US_ERR BLE_SM_ERR_CONFIRM_MISMATCH := by
  have h1 : ble_sm_dhkey_check_process env proc cmdValue res =
      (proc,
       { res with sm_err := BLE_SM_ERR_DHKEY,
                  app_status := BLE_HS_SM_US_ERR BLE_SM_ERR_DHKEY,
                  enc_cb := true },
       [Call.f6 proc.mackey (ble_sm_their_pair_rand proc)
          (ble_sm_our_pair_rand proc) proc.tk
          (if proc.flags.initiator then
             ble_sm_sc_dhkey_check_iocap proc.pair_rsp
           else ble_sm_sc_dhkey_check_iocap proc.pair_req)
          pat pa oat oa]) := by
    simp [ble_sm_dhkey_check_process, hpeer, hour, hf6, hne]
  refine ⟨h1, ?_, ?_, ?_, by decide, by decide⟩
  · rw [h1]; rw [hstate]; decide
  · rw [h1]
  · rw [h1]; simpa [stepExecutesNext] using hexec

/-- C4: the claim states a confirm mismatch is reported with reason
ConfirmMismatch as a specific SM error code to the peer and the
application.  At this concrete mismatch (initiator, Just Works, stored
peer confirm differing from the f4 recomputation) the application status
does encode ConfirmMismatch, but the SM error code for the peer is the
generic Unspecified Reason code, not the ConfirmMismatch code. -/
theorem C4_peer_gets_unspecified_not_confirm_mismatch :
    (ble_sm_sc_random_rx envT scT procInitJW Result.zero).2.1.app_status
      = BLE_HS_SM_US_ERR BLE_SM_ERR_CONFIRM_MISMATCH ∧
    (ble_sm_sc_random_rx envT scT procInitJW Result.zero).2.1.sm_err
      = BLE_SM_ERR_UNSPECIFIED ∧
    (ble_sm_sc_random_rx envT scT procInitJW Result.zero).2.1.sm_err
      ≠ BLE_SM_ERR_CONFIRM_MISMATCH := by
  decide

/-- The loop decision performs no f4 call. -/
theorem random_advance_calls_no_f4 (env : Env) (proc : Proc) :
    (ble_sm_sc_random_advance env proc).2.2.any Call.isF4 = false := by
  simp only [ble_sm_sc_random_advance]
  split
  · rfl
  · split <;> simp [Call.isF4]

/-- The numeric-comparison generation performs no f4 call. -/
theorem gen_numcmp_calls_no_f4 (env : Env) (sc : ScKeyState) (proc : Proc)
    (res : Result) :
    (ble_sm_sc_gen_numcmp env sc proc res).2.any Call.isF4 = false := by
  simp only [ble_sm_sc_gen_numcmp]
  split <;> split <;> simp [Call.isF4]

/-- The key-derivation tail of the Random step adds no f4 call to the
trace it is given. -/
theorem random_rx_tail_calls_f4 (env : Env) (sc : ScKeyState) (proc : Proc)
    (res : Result) (cs : List Call) :
    (ble_sm_sc_random_rx_tail env sc proc res cs).2.2.any Call.isF4
      = cs.any Call.isF4 := by
  simp only [ble_sm_sc_random_rx_tail]
  split
  · rfl
  · split
    · simp [Call.isF4]
    · split
      · split
        · simp [Call.isF4, random_advance_calls_no_f4,
                gen_numcmp_calls_no_f4]
        · simp [Call.isF4, random_advance_calls_no_f4]
      · simp [Call.isF4]

/-- C4 (amended): whenever the code's verification condition holds and the
f4 recomputation succeeds with a value differing from the stored peer
confirm value, `ble_sm_sc_random_rx` aborts immediately: the application
status encodes ConfirmMismatch, the SM error code for the peer is the
generic Unspecified Reason code, the encryption callback is flagged, the
procedure is returned unchanged (no MAC key or LTK is produced) and f5 is
never invoked. -/
theorem C4_amended_confirm_mismatch_abort (env : Env) (sc : ScKeyState)
    (proc : Proc) (res : Result) (cv : Bytes)
    (hmv : (proc.flags.initiator || ble_sm_sc_responder_verifies_random proc)
             = true)
    (hf4 : env.f4 proc.pub_key_peer.x sc.pub_key (ble_sm_their_pair_rand proc)
             proc.ri = (0, cv))
    (hne : proc.confirm_peer ≠ cv) :
    ble_sm_sc_random_rx env sc proc res =
      (proc,
       { res with app_status := BLE_HS_SM_US_ERR BLE_SM_ERR_CONFIRM_MISMATCH,
                  sm_err := BLE_SM_ERR_UNSPECIFIED, enc_cb := true },
       [Call.f4 proc.pub_key_peer.x sc.pub_key (ble_sm_their_pair_rand proc)
          proc.ri]) ∧
    (ble_sm_sc_random_rx env sc proc res).2.2.any Call.isF5 = false ∧
    (ble_sm_sc_random_rx env sc proc res).1 = proc ∧
    BLE_SM_ERR_UNSPECIFIED ≠ 0 := by
  have h1 : ble_sm_sc_random_rx env sc proc res =
      (proc,
       { res with app_status := BLE_HS_SM_US_ERR BLE_SM_ERR_CONFIRM_MISMATCH,
                  sm_err := BLE_SM_ERR_UNSPECIFIED, enc_cb := true },
       [Call.f4 proc.pub_key_peer.x sc.pub_key (ble_sm_their_pair_rand proc)
          proc.ri]) := by
    simp [ble_sm_sc_random_rx, hmv, hf4, hne]
  refine ⟨h1, ?_, ?_, by decide⟩
  · rw [h1]; simp [Call.isF5]
  · rw [h1]

/-- C1 (amended): in `ble_sm_sc_random_rx` the expected confirm value is
recomputed via f4 exactly when the procedure is the initiator or the
method is PasskeyEntry or OutOfBand (so an initiator always verifies, and
a responder skips verification for JustWorks and NumericComparison), and
whenever that condition holds, the recomputation succeeds and its value
differs from the previously received peer confirm value, the step aborts
with the ConfirmMismatch application status. -/
theorem C1_amended_verify_iff_initiator_or_passkey_oob (env : Env)
    (sc : ScKeyState) (proc : Proc) (res : Result) :
    ((ble_sm_sc_random_rx env sc proc res).2.2.any Call.isF4
      = (proc.flags.initiator || ble_sm_sc_responder_verifies_random proc)) ∧
    ((proc.flags.initiator || ble_sm_sc_responder_verifies_random proc)
      = (proc.flags.initiator ||
         (proc.pair_alg ≠ PairAlg.jw ∧ proc.pair_alg ≠ PairAlg.numcmp))) ∧
    (∀ cv : Bytes,
      (proc.flags.initiator || ble_sm_sc_responder_verifies_random proc)
        = true →
      env.f4 proc.pub_key_peer.x sc.pub_key (ble_sm_their_pair_rand proc)
        proc.ri = (0, cv) →
      proc.confirm_peer ≠ cv →
      (ble_sm_sc_random_rx env sc proc res).2.1.app_status
        = BLE_HS_SM_US_ERR BLE_SM_ERR_CONFIRM_MISMATCH ∧
      (ble_sm_sc_random_rx env sc proc res).2.1.enc_cb = true) := by
  refine ⟨?_, by rfl, ?_⟩
  · by_cases h : (proc.flags.initiator ||
        ble_sm_sc_responder_verifies_random proc) = true
    · rw [h]
      simp only [ble_sm_sc_random_rx, h, if_true]
      split
      · simp [Call.isF4]
      · split
        · simp [Call.isF4]
        · rw [random_rx_tail_calls_f4]
          simp [Call.isF4]
    · rw [Bool.not_eq_true] at h
      rw [h]
      simp only [ble_sm_sc_random_rx, h, Bool.false_eq_true, if_false]
      rw [random_rx_tail_calls_f4]
      rfl
  · intro cv hmv hf4 hne
    have h1 : ble_sm_sc_random_rx env sc proc res =
        (proc,
         { res with
             app_status := BLE_HS_SM_US_ERR BLE_SM_ERR_CONFIRM_MISMATCH,
             sm_err := BLE_SM_ERR_UNSPECIFIED, enc_cb := true },
         [Call.f4 proc.pub_key_peer.x sc.pub_key (ble_sm_their_pair_rand proc)
            proc.ri]) := by
      simp [ble_sm_sc_random_rx, hmv, hf4, hne]
    rw [h1]
    exact ⟨rfl, rfl⟩

/-- The capability resolver only writes `pair_alg` and the authenticated
flag: the key-material fields are untouched. -/
theorem passkey_action_our_keys (p : Proc) :
    (ble_sm_sc_passkey_action p).1.our_keys = p.our_keys := by
  simp only [ble_sm_sc_passkey_action]
  split <;> rfl

/-- The capability resolver leaves `peer_keys` untouched. -/
theorem passkey_action_peer_keys (p : Proc) :
    (ble_sm_sc_passkey_action p).1.peer_keys = p.peer_keys := by
  simp only [ble_sm_sc_passkey_action]
  split <;> rfl

/-- The capability resolver leaves `ltk` untouched. -/
theorem passkey_action_ltk (p : Proc) :
    (ble_sm_sc_passkey_action p).1.ltk = p.ltk := by
  simp only [ble_sm_sc_passkey_action]
  split <;> rfl

/-- The capability resolver leaves `mackey` untouched. -/
theorem passkey_action_mackey (p : Proc) :
    (ble_sm_sc_passkey_action p).1.mackey = p.mackey := by
  simp only [ble_sm_sc_passkey_action]
  split <;> rfl

/-- The DHKey-check processing step never writes key material. -/
theorem dhkey_check_process_keys_frame (env : Env) (proc : Proc) (v : Bytes)
    (res : Result) :
    (ble_sm_dhkey_check_process env proc v res).1.our_keys = proc.our_keys ∧
    (ble_sm_dhkey_check_process env proc v res).1.peer_keys = proc.peer_keys ∧
    (ble_sm_dhkey_check_process env proc v res).1.ltk = proc.ltk ∧
    (ble_sm_dhkey_check_process env proc v res).1.mackey = proc.mackey := by
  simp only [ble_sm_dhkey_check_process]
  split
  · exact ⟨rfl, rfl, rfl, rfl⟩
  · split <;>
    · split
      · exact ⟨rfl, rfl, rfl, rfl⟩
      · split
        · exact ⟨rfl, rfl, rfl, rfl⟩
        · split <;>
          · split
            · split <;>
                simp [passkey_action_our_keys, passkey_action_peer_keys,
                      passkey_action_ltk, passkey_action_mackey]
            · simp [passkey_action_our_keys, passkey_action_peer_keys,
                    passkey_action_ltk, passkey_action_mackey]

/-- C3 (amended): the derived LTK is written into both valid-marked
key-material records during the Random step itself, immediately after a
successful f5 derivation (here for a responder whose verification is
skipped, so the write provably precedes any DHKey-check comparison), with
the procedure still in its pre-advance state; and
`ble_sm_dhkey_check_process` never writes any key material, so the
DHKey-check comparison only gates the hand-off, not the write. -/
theorem C3_amended_ltk_written_in_random_step (env : Env) (sc : ScKeyState)
    (proc : Proc) (res : Result) (iat rat : Nat) (ia ra mk k : Bytes)
    (hresp : proc.flags.initiator = false)
    (halg : proc.pair_alg = PairAlg.jw ∨ proc.pair_alg = PairAlg.numcmp)
    (haddr : env.addrs = (0, iat, ia, rat, ra))
    (hf5 : env.f5 proc.dhkey proc.randm proc.rands iat ia rat ra = (0, mk, k)) :
    ((ble_sm_sc_random_rx env sc proc res).1.our_keys =
      { ltk := k, ltk_valid := true, ediv := 0, rand_val := 0,
        ediv_rand_valid := true }) ∧
    ((ble_sm_sc_random_rx env sc proc res).1.peer_keys =
      { ltk := k, ltk_valid := true, ediv := 0, rand_val := 0,
        ediv_rand_valid := true }) ∧
    (ble_sm_sc_random_rx env sc proc res).1.ltk = k ∧
    (ble_sm_sc_random_rx env sc proc res).1.mackey = mk ∧
    (ble_sm_sc_random_rx env sc proc res).1.state = proc.state ∧
    (ble_sm_sc_random_rx env sc proc res).2.2.any Call.isF6 = false ∧
    (∀ env2 : Env, ∀ proc2 : Proc, ∀ v : Bytes, ∀ res2 : Result,
      (ble_sm_dhkey_check_process env2 proc2 v res2).1.our_keys
        = proc2.our_keys ∧
      (ble_sm_dhkey_check_process env2 proc2 v res2).1.peer_keys
        = proc2.peer_keys ∧
      (ble_sm_dhkey_check_process env2 proc2 v res2).1.ltk = proc2.ltk ∧
      (ble_sm_dhkey_check_process env2 proc2 v res2).1.mackey
        = proc2.mackey) := by
  have hver : ble_sm_sc_responder_verifies_random proc = false := by
    rcases halg with h | h <;>
      simp [ble_sm_sc_responder_verifies_random, h]
  have hmain : ble_sm_sc_random_rx env sc proc res =
      ({ proc with
           mackey := mk,
           ltk := k,
           our_keys := { ltk := k, ltk_valid := true, ediv := 0,
                         rand_val := 0, ediv_rand_valid := true },
           peer_keys := { ltk := k, ltk_valid := true, ediv := 0,
                          rand_val := 0, ediv_rand_valid := true } },
       { res with execute := true },
       [Call.f5 proc.dhkey proc.randm proc.rands iat ia rat ra]) := by
    simp [ble_sm_sc_random_rx, hver, ble_sm_sc_random_rx_tail, haddr, hf5,
          hresp]
  refine ⟨?_, ?_, ?_, ?_, ?_, ?_, ?_⟩
  · rw [hmain]
  · rw [hmain]
  · rw [hmain]
  · rw [hmain]
  · rw [hmain]
  · rw [hmain]; rfl
  · intro env2 proc2 v res2
    exact dhkey_check_process_keys_frame env2 proc2 v res2

/-- One completed passkey round from a PasskeyEntry procedure with fewer
than 20 bits exchanged: the bit counter increases by exactly 1, the
method is unchanged, and the loop decision returns to CONFIRM exactly
when fewer than 20 bits have then been exchanged, otherwise enters
DHKEY_CHECK. -/
theorem passkeyRoundStep_spec (env : Env) (r : Bytes)
    (hgen : env.gen_pair_rand = (0, r)) (q : Proc)
    (halg : q.pair_alg = PairAlg.passkey)
    (hb : q.passkey_bits_exchanged < 20) :
    (passkeyRoundStep env q).passkey_bits_exchanged
      = q.passkey_bits_exchanged + 1 ∧
    (passkeyRoundStep env q).pair_alg = PairAlg.passkey ∧
    (passkeyRoundStep env q).state =
      (if q.passkey_bits_exchanged + 1 < 20 then ProcState.confirm
       else ProcState.dhkeyCheck) := by
  by_cases h : q.passkey_bits_exchanged + 1 < 20
  · have hlt : ¬ (q.passkey_bits_exchanged + 1 ≥ BLE_SM_SC_PASSKEY_BITS) := by
      simp only [BLE_SM_SC_PASSKEY_BITS]; omega
    simp [passkeyRoundStep, ble_sm_sc_gen_ri, ble_sm_sc_random_advance,
          setOurPairRand, halg, hgen, hlt, h]
    split <;> simp
  · have hge : q.passkey_bits_exchanged + 1 ≥ BLE_SM_SC_PASSKEY_BITS := by
      simp only [BLE_SM_SC_PASSKEY_BITS]; omega
    simp [passkeyRoundStep, ble_sm_sc_gen_ri, ble_sm_sc_random_advance,
          setOurPairRand, halg, hgen, hge, h]

/-- C6: for a PasskeyEntry procedure, `ble_sm_sc_gen_ri` increments
`passkey_bits_exchanged` by exactly 1 per round (under the source's
assertion that fewer than 20 bits are exchanged); the loop decision
`ble_sm_sc_random_advance` returns to CONFIRM exactly when the method is
PasskeyEntry and fewer than 20 bits have been exchanged - generating a
fresh own nonce in exactly that case - and otherwise proceeds to
DHKEY_CHECK; consequently, starting from 0 bits, the counter after n
completed rounds is exactly n (never exceeding 20) and the procedure
enters DHKEY_CHECK exactly at the end of round 20. -/
theorem C6_passkey_twenty_rounds (env : Env) (proc : Proc) (r : Bytes)
    (hgen : env.gen_pair_rand = (0, r))
    (halg : proc.pair_alg = PairAlg.passkey)
    (hbits : proc.passkey_bits_exchanged = 0) :
    (∀ q : Proc, q.pair_alg = PairAlg.passkey →
      q.passkey_bits_exchanged < 20 →
      (ble_sm_sc_gen_ri env q).1.passkey_bits_exchanged
        = q.passkey_bits_exchanged + 1 ∧
      (ble_sm_sc_gen_ri env q).2.1 = 0) ∧
    (∀ q : Proc,
      ((ble_sm_sc_random_advance env q).1.state = ProcState.confirm ↔
        (q.pair_alg = PairAlg.passkey ∧ q.passkey_bits_exchanged < 20)) ∧
      ((ble_sm_sc_random_advance env q).1.state = ProcState.dhkeyCheck ↔
        ¬ (q.pair_alg = PairAlg.passkey ∧ q.passkey_bits_exchanged < 20)) ∧
      (q.pair_alg = PairAlg.passkey → q.passkey_bits_exchanged < 20 →
        (ble_sm_sc_random_advance env q).2.2 = [Call.genPairRand] ∧
        ble_sm_our_pair_rand (ble_sm_sc_random_advance env q).1 = r)) ∧
    (∀ n : Nat, n ≤ 20 →
      (passkeyRoundIter env proc n).passkey_bits_exchanged = n ∧
      (passkeyRoundIter env proc n).pair_alg = PairAlg.passkey ∧
      (1 ≤ n →
        ((passkeyRoundIter env proc n).state = ProcState.dhkeyCheck ↔ n = 20) ∧
        ((passkeyRoundIter env proc n).state = ProcState.confirm ↔ n < 20))) := by
  refine ⟨?_, ?_, ?_⟩
  · intro q hq hlt
    simp [ble_sm_sc_gen_ri, hq]
  · intro q
    refine ⟨?_, ?_, ?_⟩
    · simp only [ble_sm_sc_random_advance, BLE_SM_SC_PASSKEY_BITS]
      split
      · rename_i hcond
        simp only []
        constructor
        · intro hst; exact absurd hst (by decide)
        · intro hk; rcases hcond with h | h
          · exact absurd hk.1 h
          · omega
      · rename_i hcond
        push_neg at hcond
        split <;> simp [setOurPairRand, hcond.1, hcond.2] <;> split <;> rfl
    · simp only [ble_sm_sc_random_advance, BLE_SM_SC_PASSKEY_BITS]
      split
      · rename_i hcond
        simp only []
        constructor
        · intro _; rcases hcond with h | h
          · intro hk; exact h hk.1
          · intro hk; omega
        · intro _; trivial
      · rename_i hcond
        push_neg at hcond
        constructor
        · intro hst
          exfalso
          revert hst
          split <;> simp [setOurPairRand] <;> split <;> simp
        · intro hk; exact absurd ⟨hcond.1, hcond.2⟩ hk
    · intro hq hlt
      have hge : ¬ (q.pair_alg ≠ PairAlg.passkey ∨
          q.passkey_bits_exchanged ≥ BLE_SM_SC_PASSKEY_BITS) := by
        simp only [BLE_SM_SC_PASSKEY_BITS]
        push_neg
        exact ⟨by simp [hq], by omega⟩
      simp [ble_sm_sc_random_advance, hge, hgen, setOurPairRand,
            ble_sm_our_pair_rand]
      split <;> rfl
  · intro n
    induction n with
    | zero => intro _; simpa [passkeyRoundIter, halg] using hbits
    | succ m ih =>
      intro hm
      have hm' : m ≤ 20 := by omega
      have hlt : m < 20 := by omega
      obtain ⟨ihb, iha, _⟩ := ih hm'
      have hstep := passkeyRoundStep_spec env r hgen (passkeyRoundIter env proc m)
        iha (by omega)
      have hiter : passkeyRoundIter env proc (m + 1)
          = passkeyRoundStep env (passkeyRoundIter env proc m) := rfl
      rw [hiter]
      refine ⟨by rw [hstep.1, ihb], hstep.2.1, ?_⟩
      intro _
      rw [hstep.2.2, ihb]
      by_cases h20 : m + 1 < 20
      · rw [if_pos h20]
        constructor
        · constructor
          · intro hc; exact absurd hc (by decide)
          · intro he; omega
        · simp [h20]
      · rw [if_neg h20]
        constructor
        · simp; omega
        · constructor
          · intro hc; exact absurd hc.symm (by decide)
          · intro hk; omega

/-- The C idiom `!!(B & (1 << i))` equals the tested bit of B as 0/1. -/
theorem and_shift_bit (B i : Nat) :
    ((if B &&& (1 <<< i) ≠ 0 then 1 else 0) : Nat) = (B.testBit i).toNat := by
  have h1 : (1 : Nat) <<< i = 2 ^ i := by
    simp [Nat.shiftLeft_eq]
  rw [h1, Nat.and_two_pow]
  have hpow : (2 : Nat) ^ i ≠ 0 := Nat.pos_iff_ne_zero.mp (Nat.pos_pow_of_pos i (by omega))
  by_cases h : B.testBit i <;> simp [h, hpow]

/-- Bit k of the value held little-endian in a byte buffer is bit k % 8 of
byte k / 8. -/
theorem leVal_testBit (l : Bytes) (hbytes : ∀ x ∈ l, x < 256) (k : Nat)
    (hk : k / 8 < l.length) :
    (leVal l).testBit k = (l.getD (k / 8) 0).testBit (k % 8) := by
  induction l generalizing k with
  | nil => simp at hk
  | cons b t ih =>
    have hb : b < 2 ^ 8 := by
      have := hbytes b (by simp)
      norm_num
      omega
    have hsum : leVal (b :: t) = 2 ^ 8 * leVal t + b := by
      simp [leVal]; ring
    by_cases h8 : k < 8
    · have hq : k / 8 = 0 := Nat.div_eq_of_lt h8
      have hm : k % 8 = k := Nat.mod_eq_of_lt h8
      rw [hq, hm, hsum, Nat.testBit_mul_pow_two_add (leVal t) hb k,
          if_pos h8]
      rfl
    · have h8' : 8 ≤ k := le_of_not_lt h8
      have hdiv : k / 8 = (k - 8) / 8 + 1 :=
        Nat.div_eq_sub_div (by omega) h8'
      have hmod : k % 8 = (k - 8) % 8 := Nat.mod_eq_sub_mod h8'
      rw [hsum, Nat.testBit_mul_pow_two_add (leVal t) hb k, if_neg h8,
          hdiv, hmod]
      have hk' : (k - 8) / 8 < t.length := by
        rw [hdiv] at hk
        simpa using hk
      have := ih (fun x hx => hbytes x (by simp [hx])) (k - 8) hk'
      simpa using this

/-- C7: the round value generated by `ble_sm_sc_gen_ri` is 0 for
JustWorks and NumericComparison; for PasskeyEntry (under the source's
assertion that fewer than 20 bits are exchanged) it is 0x80 OR-ed with
the bit of the locally-held passkey value (the little-endian value of
`proc->tk`) at bit index `passkey_bits_exchanged`, which is then
incremented; for OutOfBand it is a fresh byte from the RNG
collaborator. -/
theorem C7_gen_ri_values (env : Env) (proc : Proc) :
    ((proc.pair_alg = PairAlg.jw ∨ proc.pair_alg = PairAlg.numcmp) →
      ble_sm_sc_gen_ri env proc = ({ proc with ri := 0 }, 0, [])) ∧
    (proc.pair_alg = PairAlg.passkey →
      proc.passkey_bits_exchanged < 20 →
      (∀ x ∈ proc.tk, x < 256) →
      proc.tk.length = 16 →
      (ble_sm_sc_gen_ri env proc).1.ri =
        0x80 |||
          ((leVal proc.tk).testBit proc.passkey_bits_exchanged).toNat ∧
      (ble_sm_sc_gen_ri env proc).1.passkey_bits_exchanged =
        proc.passkey_bits_exchanged + 1) ∧
    (∀ rv : Nat, proc.pair_alg = PairAlg.oob → env.rand_byte = (0, rv) →
      ble_sm_sc_gen_ri env proc = ({ proc with ri := rv }, 0,
        [Call.randByte])) := by
  refine ⟨?_, ?_, ?_⟩
  · intro h
    rcases h with h | h <;> simp [ble_sm_sc_gen_ri, h]
  · intro halg hlt hbytes hlen
    have hk : proc.passkey_bits_exchanged / 8 < proc.tk.length := by
      rw [hlen]; omega
    constructor
    · simp only [ble_sm_sc_gen_ri, halg]
      rw [and_shift_bit, leVal_testBit proc.tk hbytes _ hk]
    · simp [ble_sm_sc_gen_ri, halg]
  · intro rv halg hrand
    simp [ble_sm_sc_gen_ri, halg, hrand]

/-- An initiator whose method is JustWorks or NumericComparison does not
transmit a confirm. -/
theorem txes_confirm_false_of_jw_numcmp (p : Proc)
    (h : p.pair_alg = PairAlg.jw ∨ p.pair_alg = PairAlg.numcmp) :
    ble_sm_sc_initiator_txes_confirm p = false := by
  rcases h with h | h <;> simp [ble_sm_sc_initiator_txes_confirm, h]

/-- C8: `ble_sm_sc_initiator_txes_confirm` is false exactly for JustWorks
and NumericComparison; after a successful peer-public-key reception an
initiator running one of those two methods never has the Confirm step
scheduled (no execute flag, and nothing in the step transmits a confirm),
while a PasskeyEntry or OutOfBand initiator that can advance, and every
responder, gets the next step executed; and whenever the Confirm step
runs to completion it does transmit a PairingConfirm. -/
theorem C8_initiator_confirm_omission (env : Env) (sc : ScKeyState) :
    (∀ q : Proc, (ble_sm_sc_initiator_txes_confirm q = false ↔
      (q.pair_alg = PairAlg.jw ∨ q.pair_alg = PairAlg.numcmp))) ∧
    (∀ q : Proc, ∀ cmd : PubKeyCmd, ∀ dh : Bytes,
      env.gen_dhkey cmd.x cmd.y sc.priv_key = (0, dh) →
      q.flags.initiator = true →
      (q.pair_alg = PairAlg.jw ∨ q.pair_alg = PairAlg.numcmp) →
      stepExecutesNext
        (ble_sm_sc_public_key_rx_proc env sc q cmd Result.zero).2.1 = false ∧
      (ble_sm_sc_public_key_rx_proc env sc q cmd Result.zero).2.2.any
        Call.isTxConfirm = false) ∧
    (∀ q : Proc, ∀ cmd : PubKeyCmd, ∀ dh : Bytes,
      env.gen_dhkey cmd.x cmd.y sc.priv_key = (0, dh) →
      q.flags.initiator = true →
      (q.pair_alg = PairAlg.passkey ∨ q.pair_alg = PairAlg.oob) →
      ble_sm_proc_can_advance
        (ble_sm_sc_public_key_rx_proc env sc q cmd Result.zero).1 = true →
      stepExecutesNext
        (ble_sm_sc_public_key_rx_proc env sc q cmd Result.zero).2.1
        = true) ∧
    (∀ q : Proc, ∀ cmd : PubKeyCmd, ∀ dh : Bytes,
      env.gen_dhkey cmd.x cmd.y sc.priv_key = (0, dh) →
      q.flags.initiator = false →
      stepExecutesNext
        (ble_sm_sc_public_key_rx_proc env sc q cmd Result.zero).2.1
        = true) ∧
    (∀ q : Proc,
      (ble_sm_sc_confirm_go env sc q Result.zero).2.1.app_status = 0 →
      (ble_sm_sc_confirm_go env sc q Result.zero).2.2.any Call.isTxConfirm
        = true) := by
  refine ⟨?_, ?_, ?_, ?_, ?_⟩
  · intro q
    cases hq : q.pair_alg <;>
      simp [ble_sm_sc_initiator_txes_confirm, hq]
  · intro q cmd dh hdh hinit halg
    rcases halg with h | h <;>
      simp [ble_sm_sc_public_key_rx_proc, ble_sm_sc_initiator_txes_confirm,
            hdh, hinit, h, stepExecutesNext, Call.isTxConfirm, Result.zero]
  · intro q cmd dh hdh hinit halg hcan
    rcases halg with h | h <;>
      (simp only [ble_sm_sc_public_key_rx_proc, hdh, hinit] at hcan ⊢
       simp [ble_sm_sc_initiator_txes_confirm, h, stepExecutesNext,
             Result.zero, apply_ite Prod.fst, ite_self] at hcan ⊢
       simp [hcan])
  · intro q cmd dh hdh hresp
    simp [ble_sm_sc_public_key_rx_proc, hdh, hresp, stepExecutesNext,
          Result.zero]
  · intro q h
    revert h
    simp only [ble_sm_sc_confirm_go]
    split
    · rename_i hrc
      intro h
      exact absurd (by simpa [Result.fail] using h) hrc
    · split
      · rename_i hrc
        intro h
        exact absurd (by simpa [Result.fail] using h) hrc
      · split
        · rename_i hrc
          intro h
          exact absurd (by simpa [Result.fail] using h) hrc
        · split <;> intro _ <;> simp [Call.isTxConfirm]

/-- `ble_sm_sc_gen_ri` writes only `ri` and `passkey_bits_exchanged`. -/
theorem gen_ri_frame (env : Env) (p : Proc) :
    (ble_sm_sc_gen_ri env p).1 =
      { p with ri := (ble_sm_sc_gen_ri env p).1.ri,
               passkey_bits_exchanged :=
                 (ble_sm_sc_gen_ri env p).1.passkey_bits_exchanged } := by
  cases hq : p.pair_alg <;> simp only [ble_sm_sc_gen_ri, hq] <;>
    first
    | rfl
    | (split <;> first | rfl | rw [← hq])

/-- C10: a successful Confirm transmission advances the state to RANDOM
only for a responder, the initiator's state is unchanged, and in either
case every procedure field other than `ri`, `passkey_bits_exchanged` and
the state is untouched; likewise a successful DHKey-check transmission
leaves an initiator's procedure entirely unchanged and advances only the
responder's state (to LTK_START). -/
theorem C10_role_asymmetric_state_advance (env : Env) (sc : ScKeyState)
    (proc : Proc) :
    (∃ a b s, (ble_sm_sc_confirm_go env sc proc Result.zero).1 =
      { proc with ri := a, passkey_bits_exchanged := b, state := s }) ∧
    ((ble_sm_sc_confirm_go env sc proc Result.zero).2.1.app_status = 0 →
      (proc.flags.initiator = true →
        (ble_sm_sc_confirm_go env sc proc Result.zero).1.state
          = proc.state) ∧
      (proc.flags.initiator = false →
        (ble_sm_sc_confirm_go env sc proc Result.zero).1.state
          = ProcState.random)) ∧
    ((ble_sm_sc_dhkey_check_go env proc Result.zero).2.1.app_status = 0 →
      (proc.flags.initiator = true →
        (ble_sm_sc_dhkey_check_go env proc Result.zero).1 = proc) ∧
      (proc.flags.initiator = false →
        (ble_sm_sc_dhkey_check_go env proc Result.zero).1 =
          { proc with state := ProcState.ltkStart })) := by
  have hp1 := gen_ri_frame env proc
  refine ⟨?_, ?_, ?_⟩
  · simp only [ble_sm_sc_confirm_go]
    split
    · exact ⟨_, _, proc.state, hp1⟩
    · split
      · exact ⟨_, _, proc.state, hp1⟩
      · split
        · exact ⟨_, _, proc.state, hp1⟩
        · split
          · exact ⟨_, _, ProcState.random,
              congrArg (fun r => { r with state := ProcState.random }) hp1⟩
          · exact ⟨_, _, proc.state, hp1⟩
  · intro h
    revert h
    have hfl : (ble_sm_sc_gen_ri env proc).1.flags = proc.flags := by
      rw [hp1]
    have hst : (ble_sm_sc_gen_ri env proc).1.state = proc.state := by
      rw [hp1]
    simp only [ble_sm_sc_confirm_go]
    split
    · rename_i hrc
      intro h
      exact absurd (by simpa [Result.fail] using h) hrc
    · split
      · rename_i hrc
        intro h
        exact absurd (by simpa [Result.fail] using h) hrc
      · split
        · rename_i hrc
          intro h
          exact absurd (by simpa [Result.fail] using h) hrc
        · split
          · rename_i hrole
            simp only [hfl] at hrole
            intro _
            constructor
            · intro hi
              simp [hi] at hrole
            · intro _
              rfl
          · rename_i hrole
            simp only [hfl] at hrole
            intro _
            constructor
            · intro _
              exact hst
            · intro hi
              simp [hi] at hrole
  · intro h
    revert h
    simp only [ble_sm_sc_dhkey_check_go]
    split
    · rename_i hrc
      intro h
      exact absurd (by simpa [Result.fail] using h) hrc
    · split
      · rename_i hio
        split
        · rename_i hrc
          intro h
          exact absurd (by simpa [Result.fail] using h) hrc
        · split
          · rename_i hrc
            intro h
            exact absurd (by simpa [Result.fail] using h) hrc
          · intro _
            constructor
            · intro _
              rfl
            · intro hi
              simp [hi] at hio
      · rename_i hio
        split
        · rename_i hrc
          intro h
          exact absurd (by simpa [Result.fail] using h) hrc
        · split
          · rename_i hrc
            intro h
            exact absurd (by simpa [Result.fail] using h) hrc
          · intro _
            constructor
            · intro hi
              simp [hi] at hio
            · intro _
              rfl

/-- Witness for C1 (amended) at a concrete initiator Just Works
procedure: verification runs and the stored mismatching confirm aborts
with the ConfirmMismatch application status. -/
theorem C1_amended_witness :
    (ble_sm_sc_random_rx envT scT procInitJW Result.zero).2.2.any Call.isF4
      = true ∧
    (ble_sm_sc_random_rx envT scT procInitJW Result.zero).2.1.app_status
      = BLE_HS_SM_US_ERR BLE_SM_ERR_CONFIRM_MISMATCH := by
  have h := C1_amended_verify_iff_initiator_or_passkey_oob envT scT
    procInitJW Result.zero
  constructor
  · rw [h.1]; decide
  · exact (h.2.2 (List.replicate 16 7) (by decide) rfl (by decide)).1

/-- Witness for C3 (amended) at the concrete responder Just Works
procedure: the key material is written during the Random step. -/
theorem C3_amended_witness :
    (ble_sm_sc_random_rx envT scT procRespJW Result.zero).1.our_keys.ltk_valid
      = true ∧
    (ble_sm_sc_random_rx envT scT procRespJW Result.zero).1.ltk
      = List.replicate 16 3 := by
  have h := C3_amended_ltk_written_in_random_step envT scT procRespJW
    Result.zero 0 1 (List.replicate 6 1) (List.replicate 6 2)
    (List.replicate 16 2) (List.replicate 16 3) rfl (Or.inl rfl) rfl rfl
  exact ⟨by rw [h.1], h.2.2.1⟩

/-- Witness for C4 (amended) at the concrete initiator Just Works
mismatch: the procedure is unchanged and f5 never runs. -/
theorem C4_amended_witness :
    (ble_sm_sc_random_rx envT scT procInitJW Result.zero).1 = procInitJW ∧
    (ble_sm_sc_random_rx envT scT procInitJW Result.zero).2.2.any Call.isF5
      = false := by
  have h := C4_amended_confirm_mismatch_abort envT scT procInitJW
    Result.zero (List.replicate 16 7) (by decide) rfl (by decide)
  exact ⟨h.2.2.1, h.2.1⟩

/-- Witness for C5 at a concrete DHKeyCheck-state initiator whose
received check value differs from the expected f6 value. -/
theorem C5_witness :
    (ble_sm_dhkey_check_process envT procDhk (List.replicate 16 0)
      Result.zero).2.1.sm_err = BLE_SM_ERR_DHKEY ∧
    (ble_sm_dhkey_check_process envT procDhk (List.replicate 16 0)
      Result.zero).1.state = ProcState.dhkeyCheck := by
  have h := C5_dhkey_check_mismatch_aborts envT procDhk
    (List.replicate 16 0) Result.zero 1 0 (List.replicate 6 2)
    (List.replicate 6 1) (List.replicate 16 9) rfl rfl rfl (by decide)
    rfl rfl
  exact ⟨by rw [h.1], by rw [h.1]; rfl⟩

/-- Witness for C6 at a concrete responder PasskeyEntry procedure:
after exactly 20 rounds the bit counter is 20 and the state is
DHKEY_CHECK, while after 19 rounds the loop still returns to CONFIRM. -/
theorem C6_witness :
    (passkeyRoundIter envT procPasskey 20).passkey_bits_exchanged = 20 ∧
    (passkeyRoundIter envT procPasskey 20).state = ProcState.dhkeyCheck ∧
    (passkeyRoundIter envT procPasskey 19).state = ProcState.confirm := by
  have h := C6_passkey_twenty_rounds envT procPasskey
    (List.replicate 16 8) rfl rfl rfl
  refine ⟨(h.2.2 20 (by omega)).1, ?_, ?_⟩
  · exact ((h.2.2 20 (by omega)).2.2 (by omega)).1.mpr rfl
  · exact ((h.2.2 19 (by omega)).2.2 (by omega)).2.mpr (by omega)

/-- Witness for C7 at concrete procedures of each method: PasskeyEntry
round 0 of the fixture passkey yields Ri = 0x80 (bit 0 of the passkey is
0) and increments the counter; Just Works yields 0; OutOfBand yields the
RNG byte. -/
theorem C7_witness :
    (ble_sm_sc_gen_ri envT procPasskey).1.ri = 0x80 ∧
    (ble_sm_sc_gen_ri envT procPasskey).1.passkey_bits_exchanged = 1 ∧
    ble_sm_sc_gen_ri envT { procPasskey with pair_alg := PairAlg.jw } =
      ({ procPasskey with pair_alg := PairAlg.jw, ri := 0 }, 0, []) ∧
    ble_sm_sc_gen_ri envT { procPasskey with pair_alg := PairAlg.oob } =
      ({ procPasskey with pair_alg := PairAlg.oob, ri := 66 }, 0,
       [Call.randByte]) := by
  have hp := (C7_gen_ri_values envT procPasskey).2.1 rfl (by decide)
    (by decide) (by decide)
  refine ⟨?_, hp.2, ?_, ?_⟩
  · rw [hp.1]; decide
  · exact (C7_gen_ri_values envT
      { procPasskey with pair_alg := PairAlg.jw }).1 (Or.inl rfl)
  · exact (C7_gen_ri_values envT
      { procPasskey with pair_alg := PairAlg.oob }).2.2 66 rfl rfl

/-- Witness for C8 at concrete procedures: the Just Works initiator gets
no execute flag after the peer public key, the responder and the
IO-injected PasskeyEntry initiator do, and the responder's Confirm step
transmits a PairingConfirm. -/
theorem C8_witness :
    ble_sm_sc_initiator_txes_confirm procInitJW = false ∧
    stepExecutesNext
      (ble_sm_sc_public_key_rx_proc envT scT procPubInit pubCmd
        Result.zero).2.1 = false ∧
    stepExecutesNext
      (ble_sm_sc_public_key_rx_proc envT scT procPubResp pubCmd
        Result.zero).2.1 = true ∧
    stepExecutesNext
      (ble_sm_sc_public_key_rx_proc envT scT procPubPkInit pubCmd
        Result.zero).2.1 = true ∧
    (ble_sm_sc_confirm_go envT scT procRespJW Result.zero).2.2.any
      Call.isTxConfirm = true := by
  have h := C8_initiator_confirm_omission envT scT
  refine ⟨(h.1 procInitJW).mpr (Or.inl rfl), ?_, ?_, ?_, ?_⟩
  · exact (h.2.1 procPubInit pubCmd (List.replicate 32 5) rfl rfl
      (Or.inl rfl)).1
  · exact h.2.2.2.1 procPubResp pubCmd (List.replicate 32 5) rfl rfl
  · exact h.2.2.1 procPubPkInit pubCmd (List.replicate 32 5) rfl rfl
      (Or.inl rfl) (by decide)
  · exact h.2.2.2.2 procRespJW (by decide)

/-- Witness for C9 at the concrete fresh key state: generation succeeds,
a second call performs no generator call and observes the same public
key. -/
theorem C9_witness :
    (ble_sm_sc_ensure_keys_generated envT scFresh).2.1 = 0 ∧
    (ble_sm_sc_ensure_keys_generated envT
        (ble_sm_sc_ensure_keys_generated envT scFresh).1).1.pub_key =
      (ble_sm_sc_ensure_keys_generated envT scFresh).1.pub_key ∧
    ble_sm_sc_ensure_keys_generated envT scT = (scT, 0, []) := by
  have h := C9_ensure_keys_idempotent envT scFresh (List.replicate 64 1)
    (List.replicate 32 2) rfl rfl
  exact ⟨by rw [h.1], h.2.2.1, h.2.1 scT rfl⟩

/-- Witness for C10 at concrete procedures: the initiator's Confirm step
leaves the state unchanged, the responder's advances to RANDOM, and the
initiator's DHKey-check transmission leaves the procedure unchanged. -/
theorem C10_witness :
    (ble_sm_sc_confirm_go envT scT procInitJW Result.zero).1.state
      = procInitJW.state ∧
    (ble_sm_sc_confirm_go envT scT procRespJW Result.zero).1.state
      = ProcState.random ∧
    (ble_sm_sc_dhkey_check_go envT procDhk Result.zero).1 = procDhk := by
  refine ⟨?_, ?_, ?_⟩
  · exact ((C10_role_asymmetric_state_advance envT scT procInitJW).2.1
      (by decide)).1 rfl
  · exact ((C10_role_asymmetric_state_advance envT scT procRespJW).2.1
      (by decide)).2 rfl
  · exact ((C10_role_asymmetric_state_advance envT scT procDhk).2.2
      (by decide)).1 rfl

end BleSmSc
